import Mathlib

/-!
# MIDI-Link: Ableton Link to MIDI clock bridge

A shallow embedding of `src/main.cpp` (classes `SpinLock` and `AbletonMidiClock`).

* C++ member state becomes the record `AbletonMidiClock`; every member function is a
  function on that record.  What the program does to the outside world (bytes sent through
  an output handle, `openPort` calls, console lines) is appended to log fields of the record.
* A `double` is a value of the type `Double` below: sign, mantissa and exponent of a finite
  value, an infinity or a NaN.  Division rounds to the nearest binary64 value, ties to even,
  as the hardware does; `std::floor` and `static_cast<int>` follow.  An `int` is an `Int`
  between `-2^31` and `2^31 - 1`.
* `std::unordered_map` does not fix an iteration order.  The registry keeps its entries in
  insertion order and every range-`for` over it visits them in the order chosen by an
  `UnorderedMapOrder`, an arbitrary permutation of the entries.
* A C++ exception leaves the object state as it is at the `throw`; a fallible member function
  returns an `Outcome` next to the state.
* The second half of the file is a small-step model of the three threads of the program
  (discovery, pulse loop, start/stop callback) around the shared `SpinLock`.
-/

namespace MidiLink

/-! ## SpinLock -/

/-- The class `SpinLock`: one `std::atomic_flag`, initially clear. -/
structure SpinLock where
  _flag : Bool := false
deriving DecidableEq, Repr

/-- The member `try_lock`: `!_flag.test_and_set()`; the flag is set afterwards in any case. -/
def SpinLock.try_lock (l : SpinLock) : Bool × SpinLock :=
  (!l._flag, { l with _flag := true })

/-- The member `unlock`: `_flag.clear()`. -/
def SpinLock.unlock (l : SpinLock) : SpinLock :=
  { l with _flag := false }

/-- The member `lock`: `while(_flag.test_and_set()) { }`.  Run by one thread with nobody
else to clear the flag, the loop never ends when the flag is set: `none`. -/
def SpinLock.lock (l : SpinLock) : Option SpinLock :=
  if l._flag then none else some { l with _flag := true }

/-! ## Output handles and the registry -/

/-- An `RtMidiOut` on which `openPort(port)` has succeeded. -/
structure RtMidiOut where
  port : Nat
deriving DecidableEq, Repr

/-- The member `_midiOutputs`: the entries of the `std::unordered_map`, in insertion order. -/
abbrev Registry := List (String × RtMidiOut)

/-- The keys of the registry, in insertion order. -/
def Registry.keys (r : Registry) : List String := r.map Prod.fst

/-- The call `_midiOutputs.find(name)`: the mapped handle, `none` for `end()`. -/
def Registry.find (r : Registry) (name : String) : Option RtMidiOut :=
  match r with
  | [] => none
  | (k, v) :: rest => if k = name then some v else Registry.find rest name

/-- The statement `_midiOutputs[name] = output`: assigns to the entry of `name` when there
is one, inserts a new entry otherwise. -/
def Registry.assign (r : Registry) (name : String) (output : RtMidiOut) : Registry :=
  match r.find name with
  | some _ => r.map (fun e => if e.1 = name then (name, output) else e)
  | none => r ++ [(name, output)]

/-- The iteration order of a `std::unordered_map`: some rearrangement of its entries, which
the C++ standard leaves to the implementation (hash function, bucket layout). -/
structure UnorderedMapOrder where
  order : Registry → Registry
  perm : ∀ r, (order r).Perm r

/-- An implementation that iterates in insertion order. -/
def insertionOrder : UnorderedMapOrder := ⟨id, fun r => List.Perm.refl r⟩

/-- An implementation that iterates newest entry first (a node of a new bucket is linked at
the head of the element list). -/
def newestFirst : UnorderedMapOrder := ⟨List.reverse, fun r => List.reverse_perm r⟩

/-- The transport as one `RtMidiOut out` sees it during a discovery pass. -/
structure RtMidi where
  /-- The names `out.getPortName(i)` for `i < out.getPortCount()`. -/
  portNames : List String
  /-- What `openPort(i)` throws: `none` when the port opens, otherwise the `what()` text. -/
  openPort : Nat → Option String

/-- One `sendMessage` call: the registry entry it was made through and the bytes. -/
structure Sent where
  device : String
  output : RtMidiOut
  bytes : List Nat
deriving DecidableEq, Repr

/-! ## AbletonMidiClock -/

/-- The members of `AbletonMidiClock` the program logic reads and writes, and the logs of its
effects: `sent` (every `sendMessage`), `opened` (every `openPort` call that succeeded, with the
identity of the port, in the order of the calls), `cout` and `cerr`. -/
structure AbletonMidiClock where
  _running : Bool := true
  _midiOutputs : Registry := []
  _clockIndex : Int := -1
  _lock : SpinLock := {}
  sent : List Sent := []
  opened : List (String × Nat) := []
  cout : List String := []
  cerr : List String := []
deriving DecidableEq, Repr

/-- How a member function that may throw ends: it returns, it throws an exception with the
given `what()`, or it spins in `SpinLock.lock` forever. -/
inductive Outcome where
  | returned
  | threw (what : String)
  | spins
deriving DecidableEq, Repr

/-- The constant `kMidiClock`. -/
def kMidiClock : List Nat := [0xF8]

/-- The constant `kMidiClockStart`. -/
def kMidiClockStart : List Nat := [0xFA]

/-- The constant `kMidiClockStop`. -/
def kMidiClockStop : List Nat := [0xFC]

/-- The loop `for(auto& [_, output] : _midiOutputs) output->sendMessage(msg)`. -/
def sendToAll (um : UnorderedMapOrder) (msg : List Nat) (s : AbletonMidiClock) :
    AbletonMidiClock :=
  { s with sent := s.sent ++ (um.order s._midiOutputs).map (fun e => ⟨e.1, e.2, msg⟩) }

/-- The common body of `sendMidiClock`, `sendMidiClockStart` and `sendMidiClockStop`:
`unique_lock(_lock, try_to_lock)`; when it owns the lock, the send loop, then the explicit
`_lock.unlock()`, then the destructor of the `unique_lock`, which unlocks once more. -/
def tryBroadcast (um : UnorderedMapOrder) (msg : List Nat) (s : AbletonMidiClock) :
    AbletonMidiClock :=
  match s._lock.try_lock with
  | (true, l) =>
    let s1 := sendToAll um msg { s with _lock := l }
    let s2 := { s1 with _lock := s1._lock.unlock }
    { s2 with _lock := s2._lock.unlock }
  | (false, l) => { s with _lock := l }

/-- The member `sendMidiClock`. -/
def sendMidiClock (um : UnorderedMapOrder) (s : AbletonMidiClock) : AbletonMidiClock :=
  tryBroadcast um kMidiClock s

/-- The member `sendMidiClockStart`. -/
def sendMidiClockStart (um : UnorderedMapOrder) (s : AbletonMidiClock) : AbletonMidiClock :=
  tryBroadcast um kMidiClockStart s

/-- The member `sendMidiClockStop`. -/
def sendMidiClockStop (um : UnorderedMapOrder) (s : AbletonMidiClock) : AbletonMidiClock :=
  tryBroadcast um kMidiClockStop s

/-- The member `startStopChanged`. -/
def startStopChanged (um : UnorderedMapOrder) (startStopSync : Bool) (s : AbletonMidiClock) :
    AbletonMidiClock :=
  if startStopSync then sendMidiClockStart um s else sendMidiClockStop um s

/-- The member `tempoChanged`: one console line (the number is kept as given). -/
def tempoChanged (newTempo : String) (s : AbletonMidiClock) : AbletonMidiClock :=
  { s with cout := s.cout ++ ["Tempo changed: " ++ newTempo] }

/-- The member `numPeersChanged`: one console line. -/
def numPeersChanged (numPeers : Int) (s : AbletonMidiClock) : AbletonMidiClock :=
  { s with cout := s.cout ++ ["Num peers changed: " ++ toString numPeers] }

/-! ## Binary64 arithmetic -/

/-- A `double`.  `finite negative mant exp` is the value `(-1)^negative * mant * 2^exp` (so
both zeros are there); a value of the binary64 format has `mant < 2^53` and
`-1074 ≤ exp ≤ 971`. -/
inductive Double where
  | finite (negative : Bool) (mant : Nat) (exp : Int)
  | infinity (negative : Bool)
  | nan
deriving DecidableEq, Repr

/-- The mantissa and the exponent are those of a binary64 value. -/
def Double.isBinary64 : Double → Bool
  | Double.finite _ m e => decide (m < 2 ^ 53) && decide (-1074 ≤ e) && decide (e ≤ 971)
  | _ => true

/-- The value is finite. -/
def Double.isFinite : Double → Bool
  | Double.finite _ _ _ => true
  | _ => false

/-- The exact value of a finite double (`0` for an infinity or a NaN). -/
def Double.toRat : Double → ℚ
  | Double.finite negative m e => (if negative then -1 else 1) * (m : ℚ) * 2 ^ e
  | _ => 0

/-- The position of the leading bit of `n`, by halving at most `fuel` times. -/
def log2Fuel : Nat → Nat → Nat
  | 0, _ => 0
  | fuel + 1, n => if n < 2 then 0 else log2Fuel fuel (n / 2) + 1

/-- The position of the leading bit of `n`: `floor (log2 n)` for `n > 0`. -/
def log2 (n : Nat) : Nat := log2Fuel n n

/-- The binary64 value nearest to `num / den * 2^scale` (`num`, `den` positive), ties to the
even mantissa, with the given sign: the rounding of every binary64 operation in the default
rounding mode.  `l + scale` is the exponent of the leading bit of the exact value, `e` the
exponent of the last mantissa bit (never below `-1074`, where the subnormal values lie), `q`
and `r` quotient and remainder of the exact value at that scale; a mantissa rounded up to
`2^53` is renormalised, and a result of `2^1024` or more is an infinity. -/
def Double.round (negative : Bool) (num den : Nat) (scale : Int) : Double :=
  let k : Int := (log2 num : Int) - (log2 den : Int)
  let l : Int := if den * 2 ^ k.toNat ≤ num * 2 ^ (-k).toNat then k else k - 1
  let e : Int := max (l + scale - 52) (-1074)
  let t : Int := scale - e
  let n : Nat := num * 2 ^ t.toNat
  let d : Nat := den * 2 ^ (-t).toNat
  let q : Nat := n / d
  let r : Nat := n % d
  let m : Nat :=
    if 2 * r < d then q else if 2 * r = d then (if q % 2 = 0 then q else q + 1) else q + 1
  let m2 : Nat := if m = 2 ^ 53 then 2 ^ 52 else m
  let e2 : Int := if m = 2 ^ 53 then e + 1 else e
  if 971 < e2 then Double.infinity negative else Double.finite negative m2 e2

/-- The double that a decimal literal with the exact value `num / den` denotes. -/
def Double.literal (num den : Nat) : Double :=
  if num = 0 then Double.finite false 0 0 else Double.round false num den 0

/-- The operator `/` on `double`. -/
def Double.div : Double → Double → Double
  | Double.nan, _ => Double.nan
  | _, Double.nan => Double.nan
  | Double.infinity _, Double.infinity _ => Double.nan
  | Double.infinity a, Double.finite b _ _ => Double.infinity (a != b)
  | Double.finite a _ _, Double.infinity b => Double.finite (a != b) 0 0
  | Double.finite a ma ea, Double.finite b mb eb =>
    if mb = 0 then (if ma = 0 then Double.nan else Double.infinity (a != b))
    else if ma = 0 then Double.finite (a != b) 0 0
    else Double.round (a != b) ma mb (ea - eb)

/-- The function `std::floor` on `double`. -/
def Double.floor : Double → Double
  | Double.finite negative m e =>
    if 0 ≤ e then Double.finite negative m e
    else if negative then
      (if m % 2 ^ (-e).toNat = 0 then Double.finite true (m / 2 ^ (-e).toNat) 0
       else Double.finite true (m / 2 ^ (-e).toNat + 1) 0)
    else Double.finite false (m / 2 ^ (-e).toNat) 0
  | x => x

/-- The conversion `static_cast<int>` of a `double`: truncation toward zero.  For a value
that does not fit an `int`, an infinity or a NaN, C++ leaves the behaviour undefined; the
conversion instruction of x86-64 then yields `INT_MIN`, which is the value taken here. -/
def Double.toInt : Double → Int
  | Double.finite negative m e =>
    let t : Nat := if 0 ≤ e then m * 2 ^ e.toNat else m / 2 ^ (-e).toNat
    let v : Int := if negative then -(t : Int) else (t : Int)
    if -2147483648 ≤ v ∧ v ≤ 2147483647 then v else -2147483648
  | _ => -2147483648

/-! ## Phase-to-tick conversion and the pulse loop -/

/-- The constant `kClockInterval`, `1.0 / 24.0`. -/
def kClockInterval : Double := Double.div (Double.literal 1 1) (Double.literal 24 1)

/-- The local `newClockIndex`: `static_cast<int>(std::floor(phase / kClockInterval))`. -/
def newClockIndex (phase : Double) : Int :=
  Double.toInt (Double.floor (Double.div phase kClockInterval))

/-- One iteration of the body of `runThread` for the phase the timeline reports.  The
boolean tells whether the iteration called `sendMidiClock` (a tick event). -/
def runThreadBody (um : UnorderedMapOrder) (phase : Double) (s : AbletonMidiClock) :
    Bool × AbletonMidiClock :=
  if newClockIndex phase ≠ s._clockIndex then
    (true, sendMidiClock um { s with _clockIndex := newClockIndex phase })
  else
    (false, s)

/-- The member `runThread` over the successive phases the timeline reports, one for each
iteration; `_running` is read before every iteration.  The list collects the tick-event flag
of each iteration made. -/
def runThread (um : UnorderedMapOrder) :
    List Double → AbletonMidiClock → List Bool × AbletonMidiClock
  | [], s => ([], s)
  | phase :: rest, s =>
    if s._running then
      let r := runThreadBody um phase s
      let r2 := runThread um rest r.2
      (r.1 :: r2.1, r2.2)
    else ([], s)

/-! ## Discovery -/

/-- The body of the `for` loop of `checkForMidiDevices` for port `i`, whose name is `name`. -/
def checkPort (out : RtMidi) (i : Nat) (name : String) (s : AbletonMidiClock) :
    Outcome × AbletonMidiClock :=
  match s._midiOutputs.find name with
  | some _ => (Outcome.returned, s)
  | none =>
    match s._lock.lock with
    | none => (Outcome.spins, s)
    | some l =>
      let s1 := { s with _lock := l }
      match out.openPort i with
      | some what => (Outcome.threw what, { s1 with _lock := s1._lock.unlock })
      | none =>
        let s2 := { s1 with opened := s1.opened ++ [(name, i)],
                            _midiOutputs := s1._midiOutputs.assign name ⟨i⟩ }
        let s3 := { s2 with cout := s2.cout ++ ["Opened port: " ++ name] }
        (Outcome.returned, { s3 with _lock := s3._lock.unlock })

/-- The `for` loop of `checkForMidiDevices` from port number `i` on; `names` are the names
of the ports `i`, `i+1`, ... -/
def checkPortsFrom (out : RtMidi) : Nat → List String → AbletonMidiClock →
    Outcome × AbletonMidiClock
  | _, [], s => (Outcome.returned, s)
  | i, name :: rest, s =>
    match checkPort out i name s with
    | (Outcome.returned, s1) => checkPortsFrom out (i + 1) rest s1
    | r => r

/-- The member `checkForMidiDevices` (a discovery pass). -/
def checkForMidiDevices (out : RtMidi) (s : AbletonMidiClock) : Outcome × AbletonMidiClock :=
  checkPortsFrom out 0 out.portNames s

/-- The constructor: the members take their initial values (the calls on `_link` touch none
of them), one discovery pass runs (an exception leaves the constructor), then the start line
is printed. -/
def AbletonMidiClock.construct (out : RtMidi) : Outcome × AbletonMidiClock :=
  match checkForMidiDevices out {} with
  | (Outcome.returned, s) =>
    (Outcome.returned, { s with cout := s.cout ++ ["Ableton MIDI Clock started"] })
  | r => r

/-- The member `run`, as the thread that calls it executes it (`startThread` starts the
pulse thread, whose steps are those of `runThread`; the sleep has no effect on the state):
the loop makes one discovery pass for each element of `polls` while `_running` holds.  The
result is the returned exit status; `none` when the polls are used up with the loop still
going, or when a pass spins. -/
def run : List RtMidi → AbletonMidiClock → Option Int × AbletonMidiClock
  | [], s => if s._running then (none, s) else (some 0, s)
  | out :: rest, s =>
    if s._running then
      match checkForMidiDevices out s with
      | (Outcome.returned, s1) => run rest s1
      | (Outcome.threw what, s1) => (some 1, { s1 with cerr := s1.cerr ++ [what] })
      | (Outcome.spins, s1) => (none, s1)
    else (some 0, s)

/-- The messages sent between the state `before` and the later state `after`. -/
def delivered (before after : AbletonMidiClock) : List Sent :=
  after.sent.drop before.sent.length

/-- The tick events the spec expects for a run of computed indices: one at each index that
differs from the index stored before it. -/
def indexChanges : Int → List Int → List Bool
  | _, [] => []
  | stored, i :: rest => decide (i ≠ stored) :: indexChanges i rest

/-- The state `s` after the ports `added` (identity and port number, in this order) have been
opened and inserted by discovery. -/
def withAdded (s : AbletonMidiClock) (added : List (String × Nat)) : AbletonMidiClock :=
  { s with _midiOutputs := s._midiOutputs ++ added.map (fun a => (a.1, (⟨a.2⟩ : RtMidiOut))),
           opened := s.opened ++ added,
           cout := s.cout ++ added.map (fun a => "Opened port: " ++ a.1) }

/-- The registry lists the identities in the order in which they were opened, and the lock is
free: true of a new object and kept by every discovery pass. -/
def AppendOrdered (s : AbletonMidiClock) : Prop :=
  s._midiOutputs.keys = s.opened.map Prod.fst ∧ s._lock._flag = false

/-! ## The three threads around the lock

The discovery thread runs `checkForMidiDevices`, the pulse thread calls `sendMidiClock` at
each tick, the callback thread calls `startStopChanged`.  Each thread advances by one step at
a time; a step is one access to the atomic flag or the code between two such accesses. -/

/-- Where a thread stands in `sendMidiClock`, `sendMidiClockStart` or `sendMidiClockStop`. -/
inductive SendPc where
  /-- Not inside a send function. -/
  | outside
  /-- The `try_lock` succeeded; at the `for` loop over `_midiOutputs`, with this message. -/
  | inLoop (msg : List Nat)
  /-- The loop is done; at the explicit `_lock.unlock()`. -/
  | atUnlock
  /-- At the closing brace of the `if`: the destructor of the `unique_lock`. -/
  | atGuardEnd
deriving DecidableEq, Repr

/-- Where the discovery thread stands in `checkForMidiDevices`. -/
inductive DiscoveryPc where
  /-- At the loop test and the `find` for port `i`. -/
  | atFind (i : Nat)
  /-- In `lock()`, called by the `lock_guard` for port `i`; a step is one `test_and_set`. -/
  | atLock (i : Nat)
  /-- The lock is taken; at `openPort(i)` and the insertion. -/
  | inserting (i : Nat)
  /-- The entry is inserted; at the closing brace: the destructor of the `lock_guard`. -/
  | atGuardEnd (i : Nat)
  /-- The pass has returned. -/
  | passDone
  /-- The pass was left by an exception. -/
  | passThrew (what : String)
deriving DecidableEq, Repr

/-- The object together with the positions of the three threads. -/
structure Threads where
  obj : AbletonMidiClock := {}
  pulse : SendPc := SendPc.outside
  callback : SendPc := SendPc.outside
  discovery : DiscoveryPc := DiscoveryPc.atFind 0
deriving DecidableEq, Repr

/-- One step of a thread that is in, or about to call with message `msg`, a send function. -/
def sendStep (um : UnorderedMapOrder) (msg : List Nat) (pc : SendPc) (o : AbletonMidiClock) :
    SendPc × AbletonMidiClock :=
  match pc with
  | SendPc.outside =>
    match o._lock.try_lock with
    | (true, l) => (SendPc.inLoop msg, { o with _lock := l })
    | (false, l) => (SendPc.outside, { o with _lock := l })
  | SendPc.inLoop m => (SendPc.atUnlock, sendToAll um m o)
  | SendPc.atUnlock => (SendPc.atGuardEnd, { o with _lock := o._lock.unlock })
  | SendPc.atGuardEnd => (SendPc.outside, { o with _lock := o._lock.unlock })

/-- One step of the discovery thread. -/
def discoveryStep (out : RtMidi) (pc : DiscoveryPc) (o : AbletonMidiClock) :
    DiscoveryPc × AbletonMidiClock :=
  match pc with
  | DiscoveryPc.atFind i =>
    match out.portNames.get? i with
    | none => (DiscoveryPc.passDone, o)
    | some name =>
      match o._midiOutputs.find name with
      | some _ => (DiscoveryPc.atFind (i + 1), o)
      | none => (DiscoveryPc.atLock i, o)
  | DiscoveryPc.atLock i =>
    match o._lock.try_lock with
    | (true, l) => (DiscoveryPc.inserting i, { o with _lock := l })
    | (false, l) => (DiscoveryPc.atLock i, { o with _lock := l })
  | DiscoveryPc.inserting i =>
    match out.portNames.get? i with
    | none => (DiscoveryPc.passDone, o)
    | some name =>
      match out.openPort i with
      | some what => (DiscoveryPc.passThrew what, { o with _lock := o._lock.unlock })
      | none =>
        (DiscoveryPc.atGuardEnd i,
          { o with opened := o.opened ++ [(name, i)],
                   _midiOutputs := o._midiOutputs.assign name ⟨i⟩,
                   cout := o.cout ++ ["Opened port: " ++ name] })
  | DiscoveryPc.atGuardEnd i => (DiscoveryPc.atFind (i + 1), { o with _lock := o._lock.unlock })
  | DiscoveryPc.passDone => (DiscoveryPc.passDone, o)
  | DiscoveryPc.passThrew what => (DiscoveryPc.passThrew what, o)

/-- Which thread the scheduler runs next.  A callback that is outside a send function enters
`startStopChanged` with the given argument. -/
inductive Turn where
  | pulse
  | callback (startStopSync : Bool)
  | discovery
deriving DecidableEq, Repr

/-- One step of the chosen thread. -/
def Threads.step (um : UnorderedMapOrder) (out : RtMidi) (t : Threads) (turn : Turn) : Threads :=
  match turn with
  | Turn.pulse =>
    let r := sendStep um kMidiClock t.pulse t.obj
    { t with pulse := r.1, obj := r.2 }
  | Turn.callback startStopSync =>
    let r := sendStep um (if startStopSync then kMidiClockStart else kMidiClockStop) t.callback t.obj
    { t with callback := r.1, obj := r.2 }
  | Turn.discovery =>
    let r := discoveryStep out t.discovery t.obj
    { t with discovery := r.1, obj := r.2 }

/-- The threads after the given schedule. -/
def Threads.exec (um : UnorderedMapOrder) (out : RtMidi) (t : Threads) (schedule : List Turn) :
    Threads :=
  schedule.foldl (Threads.step um out) t

/-- The number of threads inside a section the lock is meant to protect: the discovery thread
between its `lock()` and the end of the `lock_guard`, a sending thread between its successful
`try_lock` and its `_lock.unlock()`. -/
def Threads.inLockedSection (t : Threads) : Nat :=
  (match t.discovery with
    | DiscoveryPc.inserting _ => 1
    | DiscoveryPc.atGuardEnd _ => 1
    | _ => 0) +
  (match t.pulse with
    | SendPc.inLoop _ => 1
    | SendPc.atUnlock => 1
    | _ => 0) +
  (match t.callback with
    | SendPc.inLoop _ => 1
    | SendPc.atUnlock => 1
    | _ => 0)

/-! ## Basic facts about the send functions -/

/-- With the flag set, the `try_lock` fails and the function changes nothing. -/
theorem tryBroadcast_of_held (um : UnorderedMapOrder) (msg : List Nat) (s : AbletonMidiClock)
    (h : s._lock._flag = true) : tryBroadcast um msg s = s := by
  obtain ⟨r, m, c, ⟨f⟩, se, op, co, ce⟩ := s
  simp only at h
  subst h
  rfl

/-- With the flag clear, the message goes through every entry, in the iteration order of the
map, and the flag is clear again at the end. -/
theorem tryBroadcast_of_free (um : UnorderedMapOrder) (msg : List Nat) (s : AbletonMidiClock)
    (h : s._lock._flag = false) :
    tryBroadcast um msg s =
      { s with sent := s.sent ++ (um.order s._midiOutputs).map (fun e => ⟨e.1, e.2, msg⟩) } := by
  obtain ⟨r, m, c, ⟨f⟩, se, op, co, ce⟩ := s
  simp only at h
  subst h
  rfl

theorem tryBroadcast_midiOutputs (um : UnorderedMapOrder) (msg : List Nat)
    (s : AbletonMidiClock) : (tryBroadcast um msg s)._midiOutputs = s._midiOutputs := by
  cases h : s._lock._flag
  · rw [tryBroadcast_of_free um msg s h]
  · rw [tryBroadcast_of_held um msg s h]

theorem tryBroadcast_clockIndex (um : UnorderedMapOrder) (msg : List Nat)
    (s : AbletonMidiClock) : (tryBroadcast um msg s)._clockIndex = s._clockIndex := by
  cases h : s._lock._flag
  · rw [tryBroadcast_of_free um msg s h]
  · rw [tryBroadcast_of_held um msg s h]

theorem tryBroadcast_running (um : UnorderedMapOrder) (msg : List Nat)
    (s : AbletonMidiClock) : (tryBroadcast um msg s)._running = s._running := by
  cases h : s._lock._flag
  · rw [tryBroadcast_of_free um msg s h]
  · rw [tryBroadcast_of_held um msg s h]

theorem tryBroadcast_flag (um : UnorderedMapOrder) (msg : List Nat)
    (s : AbletonMidiClock) : (tryBroadcast um msg s)._lock._flag = s._lock._flag := by
  cases h : s._lock._flag
  · rw [tryBroadcast_of_free um msg s h]; exact h
  · rw [tryBroadcast_of_held um msg s h]; exact h

theorem delivered_append (s t : AbletonMidiClock) (l : List Sent)
    (h : t.sent = s.sent ++ l) : delivered s t = l := by
  simp [delivered, h]

/-! ## The tick index -/

theorem runThreadBody_fires (um : UnorderedMapOrder) (p : Double) (s : AbletonMidiClock) :
    (runThreadBody um p s).1 = decide (newClockIndex p ≠ s._clockIndex) := by
  unfold runThreadBody
  split <;> simp_all

theorem runThreadBody_clockIndex (um : UnorderedMapOrder) (p : Double) (s : AbletonMidiClock) :
    (runThreadBody um p s).2._clockIndex = newClockIndex p := by
  unfold runThreadBody
  split
  · simp [sendMidiClock, tryBroadcast_clockIndex]
  · simp_all

theorem runThreadBody_running (um : UnorderedMapOrder) (p : Double) (s : AbletonMidiClock) :
    (runThreadBody um p s).2._running = s._running := by
  unfold runThreadBody
  split
  · simp [sendMidiClock, tryBroadcast_running]
  · rfl

theorem runThreadBody_midiOutputs (um : UnorderedMapOrder) (p : Double) (s : AbletonMidiClock) :
    (runThreadBody um p s).2._midiOutputs = s._midiOutputs := by
  unfold runThreadBody
  split
  · simp [sendMidiClock, tryBroadcast_midiOutputs]
  · rfl

theorem runThread_ticks (um : UnorderedMapOrder) (phases : List Double) :
    ∀ s : AbletonMidiClock, s._running = true →
      (runThread um phases s).1 = indexChanges s._clockIndex (phases.map newClockIndex) ∧
      (runThread um phases s).2._clockIndex =
        (phases.map newClockIndex).getLastD s._clockIndex := by
  induction phases with
  | nil => intro s _; simp [runThread, indexChanges]
  | cons p rest ih =>
    intro s hs
    have hr : (runThreadBody um p s).2._running = true := by
      rw [runThreadBody_running]; exact hs
    obtain ⟨h1, h2⟩ := ih (runThreadBody um p s).2 hr
    rw [runThreadBody_clockIndex] at h1 h2
    constructor
    · simp only [runThread, hs, if_true, List.map_cons, indexChanges, h1, runThreadBody_fires]
    · simp only [runThread, hs, if_true, List.map_cons, h2]
      cases rest <;> simp [List.getLastD]

theorem kClockInterval_eq :
    kClockInterval = Double.finite false 0x15555555555555 (-57) := by
  decide

/-- The doubles of the scenario and their tick indices: `0.0`, `0.05` (which is
`0x1.999999999999ap-5`) and `0.09` (which is `0x1.70a3d70a3d70ap-4`). -/
theorem scenario_indices :
    Double.literal 1 20 = Double.finite false 0x1999999999999a (-57) ∧
    Double.literal 9 100 = Double.finite false 0x170a3d70a3d70a (-56) ∧
    [Double.literal 0 1, Double.literal 1 20, Double.literal 9 100].map newClockIndex
      = [0, 1, 2] := by
  decide

/-- The model on further doubles: `0.5` has the index `12`, `0.999999` the index `23`, the
negative phase `-1/48` the index `-1`, and for `1e10` the quotient does not fit an `int` and
the conversion yields `INT_MIN`. -/
theorem newClockIndex_examples :
    newClockIndex (Double.literal 1 2) = 12 ∧
    newClockIndex (Double.literal 999999 1000000) = 23 ∧
    newClockIndex (Double.round true 1 48 0) = -1 ∧
    newClockIndex (Double.literal 10000000000 1) = -2147483648 := by
  decide

theorem round_shape (negative : Bool) (num den : Nat) (scale : Int) :
    Double.round negative num den scale = Double.infinity negative ∨
    ∃ m e, Double.round negative num den scale = Double.finite negative m e := by
  unfold Double.round
  lift_lets
  intro k l e t n d q r m m2 e2
  by_cases h : 971 < e2
  · exact Or.inl (if_pos h)
  · exact Or.inr ⟨m2, e2, if_neg h⟩

theorem floor_shape (m : Nat) (e : Int) :
    ∃ m2 e2, Double.floor (Double.finite false m e) = Double.finite false m2 e2 := by
  by_cases he : 0 ≤ e
  · exact ⟨m, e, by simp [Double.floor, he]⟩
  · exact ⟨m / 2 ^ (-e).toNat, 0, by simp [Double.floor, he]⟩

theorem toInt_of_nonneg (m : Nat) (e : Int) :
    0 ≤ Double.toInt (Double.finite false m e) ∨
    Double.toInt (Double.finite false m e) = -2147483648 := by
  simp only [Double.toInt, Bool.false_eq_true, if_false]
  split_ifs
  · exact Or.inl (Int.ofNat_nonneg _)
  · exact Or.inr rfl
  · exact Or.inl (Int.ofNat_nonneg _)
  · exact Or.inr rfl

theorem toRat_nonneg_cases (negative : Bool) (m : Nat) (e : Int)
    (h : 0 ≤ (Double.finite negative m e).toRat) : negative = false ∨ m = 0 := by
  cases negative with
  | false => exact Or.inl rfl
  | true =>
    right
    by_contra hm
    have hpos : (0 : ℚ) < (m : ℚ) * 2 ^ e :=
      mul_pos (by exact_mod_cast Nat.pos_of_ne_zero hm) (zpow_pos (by norm_num) e)
    simp only [Double.toRat, if_true] at h
    linarith

/-- A finite phase that is not below zero never has the index `-1`. -/
theorem newClockIndex_ne_neg_one (p : Double) (hfin : p.isFinite = true)
    (h0 : 0 ≤ p.toRat) : newClockIndex p ≠ -1 := by
  cases p with
  | infinity n => simp [Double.isFinite] at hfin
  | nan => simp [Double.isFinite] at hfin
  | finite negative m e =>
    unfold newClockIndex
    rw [kClockInterval_eq]
    by_cases hm : m = 0
    · subst hm
      have hdiv : Double.div (Double.finite negative 0 e)
          (Double.finite false 0x15555555555555 (-57)) =
          Double.finite (negative != false) 0 0 := by
        simp [Double.div]
      rw [hdiv]
      cases negative <;> decide
    · rcases toRat_nonneg_cases negative m e h0 with hn | hz
      · subst hn
        have hdiv : Double.div (Double.finite false m e)
            (Double.finite false 0x15555555555555 (-57)) =
            Double.round false m 0x15555555555555 (e - (-57)) := by
          simp [Double.div, hm]
        rw [hdiv]
        rcases round_shape false m 0x15555555555555 (e - (-57)) with hr | ⟨m1, e1, hr⟩
        · rw [hr]
          decide
        · rw [hr]
          obtain ⟨m2, e2, hf⟩ := floor_shape m1 e1
          rw [hf]
          rcases toInt_of_nonneg m2 e2 with h | h
          · omega
          · rw [h]
            decide
      · exact absurd hz hm

/-- C1 (the code breaks the claim): `kClockInterval` is the double `0x1.5555555555555p-5`,
which lies below `1/24`.  For the phase `0x1.fffffffffffffp-1`, the largest double below `1`,
the quotient `phase / kClockInterval` rounds to exactly `24.0`, so the loop computes the
index `24`, while `floor(p * 24)` is `23` for the exact value of that phase; and for the
phase `0x1.5555555555555p-5` the quotient is `1.0` and the index `1`, while `floor(p * 24)`
is `0`. -/
theorem newClockIndex_is_24_at_largest_phase :
    kClockInterval = Double.finite false 0x15555555555555 (-57) ∧
    kClockInterval.toRat < 1 / 24 ∧
    (Double.finite false 0x1fffffffffffff (-53)).isBinary64 = true ∧
    0 ≤ (Double.finite false 0x1fffffffffffff (-53)).toRat ∧
    (Double.finite false 0x1fffffffffffff (-53)).toRat < 1 ∧
    Int.floor ((Double.finite false 0x1fffffffffffff (-53)).toRat * 24) = 23 ∧
    Double.div (Double.finite false 0x1fffffffffffff (-53)) kClockInterval =
      Double.finite false 0x18000000000000 (-48) ∧
    (Double.finite false 0x18000000000000 (-48)).toRat = 24 ∧
    newClockIndex (Double.finite false 0x1fffffffffffff (-53)) = 24 ∧
    Int.floor ((Double.finite false 0x15555555555555 (-57)).toRat * 24) = 0 ∧
    newClockIndex (Double.finite false 0x15555555555555 (-57)) = 1 := by
  refine ⟨by decide, ?_, by decide, ?_, ?_, ?_, by decide, ?_, by decide, ?_, by decide⟩
  · rw [kClockInterval_eq]
    norm_num [Double.toRat]
  · norm_num [Double.toRat]
  · norm_num [Double.toRat]
  · rw [Int.floor_eq_iff]
    norm_num [Double.toRat]
  · norm_num [Double.toRat]
  · rw [Int.floor_eq_iff]
    norm_num [Double.toRat]

/-! ## Discovery -/

theorem find_append (r r2 : Registry) (n : String) :
    Registry.find (r ++ r2) n =
      match Registry.find r n with
      | some v => some v
      | none => Registry.find r2 n := by
  induction r with
  | nil => simp only [List.nil_append, Registry.find]
  | cons e rest ih =>
    obtain ⟨k, v⟩ := e
    simp only [List.cons_append, Registry.find]
    split
    · rfl
    · exact ih

theorem find_append_of_some (r r2 : Registry) (n : String) (v : RtMidiOut)
    (h : Registry.find r n = some v) : Registry.find (r ++ r2) n = some v := by
  rw [find_append, h]

theorem find_eq_none_iff (r : Registry) (n : String) :
    Registry.find r n = none ↔ n ∉ r.keys := by
  induction r with
  | nil => simp [Registry.find, Registry.keys]
  | cons e rest ih =>
    obtain ⟨k, v⟩ := e
    simp only [Registry.find, Registry.keys, List.map_cons, List.mem_cons, not_or]
    split
    · rename_i hk
      simp [hk]
    · rename_i hk
      rw [ih]
      simp only [Registry.keys]
      constructor
      · intro h
        exact ⟨fun e => hk e.symm, h⟩
      · intro h
        exact h.2

theorem withAdded_nil (s : AbletonMidiClock) : withAdded s [] = s := by
  simp [withAdded]

theorem withAdded_withAdded (s : AbletonMidiClock) (a b : List (String × Nat)) :
    withAdded (withAdded s a) b = withAdded s (a ++ b) := by
  simp [withAdded, List.append_assoc]

/-- The four ways the loop body of `checkForMidiDevices` can go. -/
theorem checkPort_cases (out : RtMidi) (i : Nat) (name : String) (s : AbletonMidiClock) :
    ((∃ v, s._midiOutputs.find name = some v) ∧ checkPort out i name s = (Outcome.returned, s)) ∨
    (s._midiOutputs.find name = none ∧ s._lock._flag = true ∧
      checkPort out i name s = (Outcome.spins, s)) ∨
    (∃ w, s._midiOutputs.find name = none ∧ s._lock._flag = false ∧ out.openPort i = some w ∧
      checkPort out i name s = (Outcome.threw w, s)) ∨
    (s._midiOutputs.find name = none ∧ s._lock._flag = false ∧ out.openPort i = none ∧
      checkPort out i name s = (Outcome.returned, withAdded s [(name, i)])) := by
  obtain ⟨r, m, c, ⟨f⟩, se, op, co, ce⟩ := s
  cases hf : Registry.find m name with
  | some v =>
    left
    exact ⟨⟨v, rfl⟩, by simp [checkPort, hf]⟩
  | none =>
    right
    cases f with
    | true =>
      left
      exact ⟨rfl, rfl, by simp [checkPort, hf, SpinLock.lock]⟩
    | false =>
      right
      cases ho : out.openPort i with
      | some w =>
        left
        exact ⟨w, rfl, rfl, rfl, by simp [checkPort, hf, SpinLock.lock, SpinLock.unlock, ho]⟩
      | none =>
        right
        exact ⟨rfl, rfl, rfl, by
          simp [checkPort, hf, SpinLock.lock, SpinLock.unlock, ho, withAdded, Registry.assign]⟩

theorem find_withAdded_none (s : AbletonMidiClock) (added : List (String × Nat)) (n : String) :
    (withAdded s added)._midiOutputs.find n = none ↔
      s._midiOutputs.find n = none ∧ n ∉ added.map Prod.fst := by
  rw [find_eq_none_iff, find_eq_none_iff]
  simp [withAdded, Registry.keys, List.map_append, List.map_map, Function.comp_def]

theorem find_withAdded_of_some (s : AbletonMidiClock) (added : List (String × Nat)) (n : String)
    (v : RtMidiOut) (h : s._midiOutputs.find n = some v) :
    (withAdded s added)._midiOutputs.find n = some v :=
  find_append_of_some _ _ n v h

theorem find_withAdded_single (s : AbletonMidiClock) (name : String) (i : Nat)
    (h : s._midiOutputs.find name = none) :
    (withAdded s [(name, i)])._midiOutputs.find name = some ⟨i⟩ := by
  simp [withAdded, find_append, h, Registry.find]

/-- What a discovery pass over the ports `i`, `i+1`, ... with the names `names` does. -/
theorem checkPortsFrom_spec (out : RtMidi) (names : List String) :
    ∀ (i : Nat) (s s1 : AbletonMidiClock) (r : Outcome),
      checkPortsFrom out i names s = (r, s1) →
      ∃ added : List (String × Nat),
        s1 = withAdded s added ∧
        (∀ a ∈ added, s._midiOutputs.find a.1 = none ∧ a.1 ∈ names) ∧
        (added.map Prod.fst).Nodup ∧
        (r = Outcome.returned → ∀ n ∈ names, ∃ v, s1._midiOutputs.find n = some v) ∧
        (∀ w, r = Outcome.threw w → ∃ j name, names.get? j = some name ∧
            out.openPort (i + j) = some w ∧ s1._midiOutputs.find name = none) ∧
        ((added ≠ [] ∨ ∃ w, r = Outcome.threw w) → s._lock._flag = false) ∧
        (r = Outcome.spins → s._lock._flag = true) := by
  induction names with
  | nil =>
    intro i s s1 r h
    simp only [checkPortsFrom, Prod.mk.injEq] at h
    obtain ⟨hr, hs⟩ := h
    subst hr hs
    exact ⟨[], (withAdded_nil s).symm, by simp, by simp, by simp, by simp, by simp, by simp⟩
  | cons name rest ih =>
    intro i s s1 r h
    rcases checkPort_cases out i name s with
      ⟨⟨v, hv⟩, hc⟩ | ⟨hn, hf, hc⟩ | ⟨w, hn, hf, ho, hc⟩ | ⟨hn, hf, ho, hc⟩
    · simp only [checkPortsFrom, hc] at h
      obtain ⟨added, h1, h2, h3, h4, h5, h6, h7⟩ := ih (i + 1) s s1 r h
      refine ⟨added, h1, ?_, h3, ?_, ?_, h6, h7⟩
      · intro a ha
        exact ⟨(h2 a ha).1, List.mem_cons_of_mem _ (h2 a ha).2⟩
      · intro hr n hn
        rcases List.mem_cons.mp hn with rfl | hn
        · exact ⟨v, by rw [h1]; exact find_withAdded_of_some s added n v hv⟩
        · exact h4 hr n hn
      · intro w hw
        obtain ⟨j, nm, hj, hop, hfd⟩ := h5 w hw
        refine ⟨j + 1, nm, by simpa using hj, ?_, hfd⟩
        rw [← hop]
        congr 1
        omega
    · simp only [checkPortsFrom, hc, Prod.mk.injEq] at h
      obtain ⟨hr, hs⟩ := h
      subst hr hs
      refine ⟨[], (withAdded_nil s).symm, by simp, by simp, by simp, by simp, by simp, ?_⟩
      intro _
      exact hf
    · simp only [checkPortsFrom, hc, Prod.mk.injEq] at h
      obtain ⟨hr, hs⟩ := h
      subst hr hs
      refine ⟨[], (withAdded_nil s).symm, by simp, by simp, by simp, ?_, ?_, by simp⟩
      · intro w2 hw2
        simp only [Outcome.threw.injEq] at hw2
        subst hw2
        exact ⟨0, name, by simp, by simpa using ho, hn⟩
      · intro _
        exact hf
    · simp only [checkPortsFrom, hc] at h
      obtain ⟨added, h1, h2, h3, h4, h5, _, h7⟩ := ih (i + 1) (withAdded s [(name, i)]) s1 r h
      rw [withAdded_withAdded] at h1
      refine ⟨[(name, i)] ++ added, h1, ?_, ?_, ?_, ?_, ?_, ?_⟩
      · intro a ha
        rcases List.mem_append.mp ha with ha | ha
        · simp only [List.mem_singleton] at ha
          subst ha
          exact ⟨hn, List.mem_cons_self _ _⟩
        · exact ⟨((find_withAdded_none s _ a.1).mp (h2 a ha).1).1,
            List.mem_cons_of_mem _ (h2 a ha).2⟩
      · simp only [List.singleton_append, List.map_cons, List.nodup_cons]
        refine ⟨?_, h3⟩
        intro hmem
        obtain ⟨a, ha, hname⟩ := List.mem_map.mp hmem
        have := ((find_withAdded_none s _ a.1).mp (h2 a ha).1).2
        apply this
        simp [hname]
      · intro hr n hmem
        rcases List.mem_cons.mp hmem with rfl | hmem
        · refine ⟨⟨i⟩, ?_⟩
          rw [h1, ← withAdded_withAdded]
          exact find_withAdded_of_some _ added n ⟨i⟩ (find_withAdded_single s n i hn)
        · exact h4 hr n hmem
      · intro w hw
        obtain ⟨j, nm, hj, hop, hfd⟩ := h5 w hw
        refine ⟨j + 1, nm, by simpa using hj, ?_, hfd⟩
        rw [← hop]
        congr 1
        omega
      · intro _
        exact hf
      · intro hr
        have := h7 hr
        simp [withAdded, hf] at this

theorem checkForMidiDevices_spec (out : RtMidi) (s : AbletonMidiClock) :
    ∃ added : List (String × Nat),
      (checkForMidiDevices out s).2 = withAdded s added ∧
      (∀ a ∈ added, s._midiOutputs.find a.1 = none ∧ a.1 ∈ out.portNames) ∧
      (added.map Prod.fst).Nodup := by
  obtain ⟨added, h1, h2, h3, _⟩ :=
    checkPortsFrom_spec out out.portNames 0 s (checkForMidiDevices out s).2
      (checkForMidiDevices out s).1 rfl
  exact ⟨added, h1, h2, h3⟩

theorem construct_clockIndex (out : RtMidi) :
    (AbletonMidiClock.construct out).2._clockIndex = -1 := by
  obtain ⟨added, h1, _⟩ := checkForMidiDevices_spec out {}
  unfold AbletonMidiClock.construct
  split
  · rename_i s hs
    rw [hs] at h1
    simp only at h1
    subst h1
    rfl
  · rename_i r _
    rw [h1]
    rfl

/-! ## The pulse loop: claims C2 and C3 -/

/-- C2, as stated, fails: processed by the pulse loop from the initial state (stored index
`-1`), the phase sequence `0.0, 0.05, 0.09` does not yield exactly two tick events. -/
theorem scenario_from_initial_state_not_two_ticks :
    ¬ ((runThread insertionOrder
      [Double.literal 0 1, Double.literal 1 20, Double.literal 9 100] {}).1.count true = 2) := by
  rw [(runThread_ticks insertionOrder
    [Double.literal 0 1, Double.literal 1 20, Double.literal 9 100] {} rfl).1,
    scenario_indices.2.2]
  decide

/-- C2, amended: for every sequence of phase samples processed by the pulse loop, a tick event
fires at a sample exactly when its computed index differs from the stored index, increases
and decreases alike (a stored 23 followed by phase 0 fires), and the stored index becomes the
new index; the phases `0.0, 0.05, 0.09` give the indices `0, 1, 2`, and exactly two tick
events when the stored index is already `0` before the first sample, three otherwise (so
three from the initial state). -/
theorem tick_fires_exactly_on_index_change (um : UnorderedMapOrder) (phases : List Double)
    (s : AbletonMidiClock) (hrun : s._running = true) :
    (runThread um phases s).1 = indexChanges s._clockIndex (phases.map newClockIndex) ∧
    (runThread um phases s).2._clockIndex = (phases.map newClockIndex).getLastD s._clockIndex ∧
    (∀ p : Double, ((runThreadBody um p s).1 = true ↔ newClockIndex p ≠ s._clockIndex) ∧
      (runThreadBody um p s).2._clockIndex = newClockIndex p) ∧
    (s._clockIndex = 23 → (runThreadBody um (Double.literal 0 1) s).1 = true) ∧
    [Double.literal 0 1, Double.literal 1 20, Double.literal 9 100].map newClockIndex
      = [0, 1, 2] ∧
    (runThread um [Double.literal 0 1, Double.literal 1 20, Double.literal 9 100] s).1.count true
      = (if s._clockIndex = 0 then 2 else 3) := by
  refine ⟨(runThread_ticks um phases s hrun).1, (runThread_ticks um phases s hrun).2, ?_, ?_,
    scenario_indices.2.2, ?_⟩
  · intro p
    refine ⟨?_, runThreadBody_clockIndex um p s⟩
    rw [runThreadBody_fires]
    simp
  · intro h23
    rw [runThreadBody_fires, h23]
    decide
  · rw [(runThread_ticks um _ s hrun).1, scenario_indices.2.2]
    by_cases h : s._clockIndex = 0
    · rw [h]
      decide
    · simp only [indexChanges, h, if_false]
      have : decide ((0 : Int) ≠ s._clockIndex) = true := by
        simp only [ne_eq, decide_eq_true_eq]
        exact fun e => h e.symm
      rw [this]
      decide

theorem tick_fires_exactly_on_index_change_witness :
    (runThread newestFirst [Double.literal 0 1, Double.literal 1 20, Double.literal 9 100] {}).1 =
      indexChanges (-1)
        ([Double.literal 0 1, Double.literal 1 20, Double.literal 9 100].map newClockIndex) ∧
    (runThread newestFirst
      [Double.literal 0 1, Double.literal 1 20, Double.literal 9 100] {}).1.count true = 3 :=
  ⟨(tick_fires_exactly_on_index_change newestFirst
      [Double.literal 0 1, Double.literal 1 20, Double.literal 9 100] {} rfl).1,
   (tick_fires_exactly_on_index_change newestFirst
      [Double.literal 0 1, Double.literal 1 20, Double.literal 9 100] {} rfl).2.2.2.2.2⟩

/-- C3: after construction the stored tick index is the sentinel `-1`, and for every first
observed phase, whatever its value in the range `0 ≤ p < 1` in which the timeline reports
the phase, the first iteration of the pulse loop fires a tick event. -/
theorem first_observed_phase_fires (out : RtMidi) (um : UnorderedMapOrder) (p : Double)
    (hfin : p.isFinite = true) (h0 : 0 ≤ p.toRat) (_h1 : p.toRat < 1) :
    (AbletonMidiClock.construct out).2._clockIndex = -1 ∧
    (runThreadBody um p (AbletonMidiClock.construct out).2).1 = true := by
  refine ⟨construct_clockIndex out, ?_⟩
  rw [runThreadBody_fires, construct_clockIndex]
  simpa using newClockIndex_ne_neg_one p hfin h0

theorem first_observed_phase_fires_witness :
    (AbletonMidiClock.construct ⟨["A"], fun _ => none⟩).2._clockIndex = -1 ∧
    (runThreadBody newestFirst (Double.finite false 1 (-1))
      (AbletonMidiClock.construct ⟨["A"], fun _ => none⟩).2).1 = true :=
  first_observed_phase_fires ⟨["A"], fun _ => none⟩ newestFirst (Double.finite false 1 (-1))
    (by decide) (by norm_num [Double.toRat]) (by norm_num [Double.toRat])

/-! ## Broadcasts: claims C5 and C6 -/

theorem delivered_tryBroadcast_of_free (um : UnorderedMapOrder) (msg : List Nat)
    (s : AbletonMidiClock) (h : s._lock._flag = false) :
    delivered s (tryBroadcast um msg s) =
      (um.order s._midiOutputs).map (fun e => ⟨e.1, e.2, msg⟩) := by
  apply delivered_append
  rw [tryBroadcast_of_free um msg s h]

theorem delivered_perm (um : UnorderedMapOrder) (msg : List Nat)
    (s : AbletonMidiClock) (h : s._lock._flag = false) :
    (delivered s (tryBroadcast um msg s)).Perm
      (s._midiOutputs.map (fun e => (⟨e.1, e.2, msg⟩ : Sent))) := by
  rw [delivered_tryBroadcast_of_free um msg s h]
  exact (um.perm s._midiOutputs).map _

/-- C5: when the registry lock is already held, a broadcast attempt (`sendMidiClock`,
`sendMidiClockStart`, `sendMidiClockStop`, also through `startStopChanged`) changes nothing:
no message is sent, the registry and the lock stay as they are (the functions have no
failing outcome); whatever happens afterwards, a later broadcast does exactly what it would
have done without the skipped attempt. -/
theorem broadcast_skipped_when_lock_held (um : UnorderedMapOrder) (s : AbletonMidiClock)
    (h : s._lock._flag = true) :
    sendMidiClock um s = s ∧ sendMidiClockStart um s = s ∧ sendMidiClockStop um s = s ∧
    (∀ b : Bool, startStopChanged um b s = s) ∧
    (∀ p : Double, (runThreadBody um p s).2.sent = s.sent ∧
      (runThreadBody um p s).2._midiOutputs = s._midiOutputs ∧
      (runThreadBody um p s).2._lock = s._lock) ∧
    (∀ (later : AbletonMidiClock → AbletonMidiClock) (b : Bool),
      sendMidiClock um (later (sendMidiClock um s)) = sendMidiClock um (later s) ∧
      sendMidiClock um (later (startStopChanged um b s)) = sendMidiClock um (later s) ∧
      startStopChanged um b (later (sendMidiClock um s)) = startStopChanged um b (later s) ∧
      delivered (later (startStopChanged um b s))
          (sendMidiClock um (later (startStopChanged um b s))) =
        delivered (later s) (sendMidiClock um (later s))) := by
  have hc : sendMidiClock um s = s := tryBroadcast_of_held um _ s h
  have ha : sendMidiClockStart um s = s := tryBroadcast_of_held um _ s h
  have ho : sendMidiClockStop um s = s := tryBroadcast_of_held um _ s h
  have hss : ∀ b : Bool, startStopChanged um b s = s := by
    intro b
    cases b <;> simp [startStopChanged, ha, ho]
  refine ⟨hc, ha, ho, hss, ?_, ?_⟩
  · intro p
    unfold runThreadBody
    split
    · have h2 : ({ s with _clockIndex := newClockIndex p } : AbletonMidiClock)._lock._flag
          = true := h
      rw [sendMidiClock, tryBroadcast_of_held um _ _ h2]
      exact ⟨rfl, rfl, rfl⟩
    · exact ⟨rfl, rfl, rfl⟩
  · intro later b
    rw [hc, hss b]
    exact ⟨rfl, rfl, rfl, rfl⟩

theorem broadcast_skipped_when_lock_held_witness :
    sendMidiClock newestFirst
        { _lock := ⟨true⟩, _midiOutputs := [("A", ⟨0⟩)] } =
      { _lock := ⟨true⟩, _midiOutputs := [("A", ⟨0⟩)] } :=
  (broadcast_skipped_when_lock_held newestFirst
    { _lock := ⟨true⟩, _midiOutputs := [("A", ⟨0⟩)] } rfl).1

/-- C6: whenever the lock is free, a broadcast sends one and the same single-byte message
through every entry of the registry exactly once and through nothing else (the messages sent
are a rearrangement of the registry entries, each with the message): `0xF8` for a tick,
`0xFA` when the start/stop callback reports `true`, `0xFC` when it reports `false`; and from
an empty registry, after a discovery pass over the single device "A", the next pulse sends
exactly `[0xF8]` to exactly "A". -/
theorem broadcast_delivers_to_every_device (um : UnorderedMapOrder) (s : AbletonMidiClock)
    (h : s._lock._flag = false) :
    ((sendMidiClock um s).sent = s.sent ++ delivered s (sendMidiClock um s) ∧
      (delivered s (sendMidiClock um s)).Perm
        (s._midiOutputs.map (fun e => (⟨e.1, e.2, [0xF8]⟩ : Sent)))) ∧
    ((startStopChanged um true s).sent = s.sent ++ delivered s (startStopChanged um true s) ∧
      (delivered s (startStopChanged um true s)).Perm
        (s._midiOutputs.map (fun e => (⟨e.1, e.2, [0xFA]⟩ : Sent)))) ∧
    ((startStopChanged um false s).sent = s.sent ++ delivered s (startStopChanged um false s) ∧
      (delivered s (startStopChanged um false s)).Perm
        (s._midiOutputs.map (fun e => (⟨e.1, e.2, [0xFC]⟩ : Sent)))) ∧
    (∀ p : Double, newClockIndex p ≠ s._clockIndex →
      (delivered s (runThreadBody um p s).2).Perm
        (s._midiOutputs.map (fun e => (⟨e.1, e.2, [0xF8]⟩ : Sent)))) ∧
    (∀ out : RtMidi, s._midiOutputs = [] → out.portNames = ["A"] → out.openPort 0 = none →
      (checkForMidiDevices out s).1 = Outcome.returned ∧
      delivered (checkForMidiDevices out s).2 (sendMidiClock um (checkForMidiDevices out s).2) =
        [⟨"A", ⟨0⟩, [0xF8]⟩]) := by
  have hsent : ∀ msg, (tryBroadcast um msg s).sent = s.sent ++ delivered s (tryBroadcast um msg s) := by
    intro msg
    rw [delivered_tryBroadcast_of_free um msg s h, tryBroadcast_of_free um msg s h]
  refine ⟨⟨hsent _, delivered_perm um _ s h⟩, ⟨?_, ?_⟩, ⟨?_, ?_⟩, ?_, ?_⟩
  · exact hsent kMidiClockStart
  · exact delivered_perm um kMidiClockStart s h
  · exact hsent kMidiClockStop
  · exact delivered_perm um kMidiClockStop s h
  · intro p hp
    unfold runThreadBody
    rw [if_pos hp]
    have h2 : ({ s with _clockIndex := newClockIndex p } : AbletonMidiClock)._lock._flag
        = false := h
    have := delivered_perm um kMidiClock _ h2
    exact this
  · intro out hempty hnames hopen
    have hfind : s._midiOutputs.find "A" = none := by rw [hempty]; rfl
    rcases checkPort_cases out 0 "A" s with
      ⟨⟨v, hv⟩, _⟩ | ⟨_, hf, _⟩ | ⟨w, _, _, ho, _⟩ | ⟨_, _, _, hc⟩
    · rw [hfind] at hv; cases hv
    · rw [h] at hf; cases hf
    · rw [hopen] at ho; cases ho
    · have hpass : checkForMidiDevices out s = (Outcome.returned, withAdded s [("A", 0)]) := by
        simp only [checkForMidiDevices, hnames, checkPortsFrom, hc]
      rw [hpass]
      refine ⟨rfl, ?_⟩
      have hfree : (withAdded s [("A", 0)])._lock._flag = false := h
      rw [sendMidiClock, delivered_tryBroadcast_of_free um _ _ hfree]
      have hreg : (withAdded s [("A", 0)])._midiOutputs = [("A", ⟨0⟩)] := by
        simp [withAdded, hempty]
      have hord : um.order [("A", (⟨0⟩ : RtMidiOut))] = [("A", ⟨0⟩)] :=
        List.perm_singleton.mp (um.perm _)
      rw [hreg, hord]
      rfl

theorem broadcast_delivers_to_every_device_witness :
    delivered (checkForMidiDevices ⟨["A"], fun _ => none⟩ {}).2
        (sendMidiClock newestFirst (checkForMidiDevices ⟨["A"], fun _ => none⟩ {}).2) =
      [⟨"A", ⟨0⟩, [0xF8]⟩] :=
  ((broadcast_delivers_to_every_device newestFirst {} rfl).2.2.2.2
    ⟨["A"], fun _ => none⟩ rfl rfl rfl).2

/-! ## Discovery and the registry: claims C7 and C8 -/

/-- A pass over ports that are all registered opens nothing and changes nothing. -/
theorem checkPortsFrom_all_found (out : RtMidi) (names : List String) :
    ∀ (i : Nat) (s : AbletonMidiClock),
      (∀ n ∈ names, ∃ v, s._midiOutputs.find n = some v) →
      checkPortsFrom out i names s = (Outcome.returned, s) := by
  induction names with
  | nil => intro i s _; rfl
  | cons name rest ih =>
    intro i s h
    obtain ⟨v, hv⟩ := h name (List.mem_cons_self _ _)
    have hc : checkPort out i name s = (Outcome.returned, s) := by
      simp [checkPort, hv]
    simp only [checkPortsFrom, hc]
    exact ih (i + 1) s (fun n hn => h n (List.mem_cons_of_mem _ hn))

theorem keys_withAdded (s : AbletonMidiClock) (added : List (String × Nat)) :
    (withAdded s added)._midiOutputs.keys = s._midiOutputs.keys ++ added.map Prod.fst := by
  simp [withAdded, Registry.keys, List.map_append, List.map_map, Function.comp_def]

theorem nodup_keys_withAdded (s : AbletonMidiClock) (added : List (String × Nat))
    (hs : s._midiOutputs.keys.Nodup) (ha : (added.map Prod.fst).Nodup)
    (hnew : ∀ a ∈ added, s._midiOutputs.find a.1 = none) :
    (withAdded s added)._midiOutputs.keys.Nodup := by
  rw [keys_withAdded]
  refine List.Nodup.append hs ha ?_
  intro n hn1 hn2
  obtain ⟨a, ha2, rfl⟩ := List.mem_map.mp hn2
  exact (find_eq_none_iff _ _).mp (hnew a ha2) hn1

theorem delivered_devices (um : UnorderedMapOrder) (msg : List Nat) (s : AbletonMidiClock)
    (h : s._lock._flag = false) :
    (delivered s (tryBroadcast um msg s)).map Sent.device = (um.order s._midiOutputs).keys := by
  rw [delivered_tryBroadcast_of_free um msg s h]
  simp [Registry.keys, List.map_map, Function.comp_def]

theorem delivered_devices_nodup (um : UnorderedMapOrder) (msg : List Nat)
    (s : AbletonMidiClock) (hs : s._midiOutputs.keys.Nodup) :
    ((delivered s (tryBroadcast um msg s)).map Sent.device).Nodup := by
  cases h : s._lock._flag
  · rw [delivered_devices um msg s h]
    exact (((um.perm s._midiOutputs).map Prod.fst).nodup_iff).mpr hs
  · rw [tryBroadcast_of_held um msg s h]
    simp [delivered]

theorem checkPortsFrom_again (out : RtMidi) (names : List String) :
    ∀ (k : Nat) (s : AbletonMidiClock),
      checkPortsFrom out k names (checkPortsFrom out k names s).2 =
        checkPortsFrom out k names s := by
  induction names with
  | nil => intro k s; rfl
  | cons n rest ih =>
    intro k s
    rcases checkPort_cases out k n s with
      ⟨⟨v, hv⟩, hc⟩ | ⟨_, _, hc⟩ | ⟨w, _, _, _, hc⟩ | ⟨hn, _, _, hc⟩
    · obtain ⟨added, h1, _⟩ :=
        checkPortsFrom_spec out rest (k + 1) s (checkPortsFrom out (k + 1) rest s).2 _ rfl
      have hfound : (checkPortsFrom out (k + 1) rest s).2._midiOutputs.find n = some v := by
        rw [h1]; exact find_withAdded_of_some s added n v hv
      have hc2 : checkPort out k n (checkPortsFrom out (k + 1) rest s).2 =
          (Outcome.returned, (checkPortsFrom out (k + 1) rest s).2) := by
        simp [checkPort, hfound]
      simp only [checkPortsFrom, hc, hc2]
      exact ih (k + 1) s
    · simp only [checkPortsFrom, hc]
    · simp only [checkPortsFrom, hc]
    · obtain ⟨added, h1, _⟩ :=
        checkPortsFrom_spec out rest (k + 1) (withAdded s [(n, k)])
          (checkPortsFrom out (k + 1) rest (withAdded s [(n, k)])).2 _ rfl
      have hfound : (checkPortsFrom out (k + 1) rest (withAdded s [(n, k)])).2._midiOutputs.find n
          = some ⟨k⟩ := by
        rw [h1]
        exact find_withAdded_of_some _ added n ⟨k⟩ (find_withAdded_single s n k hn)
      have hc2 : checkPort out k n (checkPortsFrom out (k + 1) rest (withAdded s [(n, k)])).2 =
          (Outcome.returned, (checkPortsFrom out (k + 1) rest (withAdded s [(n, k)])).2) := by
        simp [checkPort, hfound]
      simp only [checkPortsFrom, hc, hc2]
      exact ih (k + 1) (withAdded s [(n, k)])

/-- C7: discovery is idempotent per device identity.  A second discovery pass over the same
transport ends as the first did and leaves the whole state, registry and log of opened ports
included, as the first pass left it; when the first pass has returned, the same holds for a
second pass over the same enumeration whatever `openPort` would do.  Within a pass no
identity is opened twice, also when it occurs more than once in the enumeration, and only
identities absent from the registry are opened; so a registry with one handle for each
identity keeps one handle for each identity, and no device receives a message twice in one
broadcast. -/
theorem discovery_is_idempotent (out out2 : RtMidi) (s : AbletonMidiClock) :
    checkForMidiDevices out (checkForMidiDevices out s).2 = checkForMidiDevices out s ∧
    ((checkForMidiDevices out s).1 = Outcome.returned → out2.portNames = out.portNames →
      checkForMidiDevices out2 (checkForMidiDevices out s).2 =
        (Outcome.returned, (checkForMidiDevices out s).2)) ∧
    (∃ added : List (String × Nat),
      (checkForMidiDevices out s).2.opened = s.opened ++ added ∧
      (checkForMidiDevices out s).2._midiOutputs =
        s._midiOutputs ++ added.map (fun a => (a.1, (⟨a.2⟩ : RtMidiOut))) ∧
      (added.map Prod.fst).Nodup ∧
      (∀ a ∈ added, s._midiOutputs.find a.1 = none ∧ a.1 ∈ out.portNames)) ∧
    (s._midiOutputs.keys.Nodup →
      (checkForMidiDevices out s).2._midiOutputs.keys.Nodup ∧
      ∀ (um : UnorderedMapOrder) (msg : List Nat),
        ((delivered (checkForMidiDevices out s).2
          (tryBroadcast um msg (checkForMidiDevices out s).2)).map Sent.device).Nodup) := by
  obtain ⟨added, h1, h2, h3, h4, _⟩ :=
    checkPortsFrom_spec out out.portNames 0 s (checkForMidiDevices out s).2
      (checkForMidiDevices out s).1 rfl
  have hnodup : s._midiOutputs.keys.Nodup →
      (checkForMidiDevices out s).2._midiOutputs.keys.Nodup := by
    intro hs
    rw [h1]
    exact nodup_keys_withAdded s added hs h3 (fun a ha => (h2 a ha).1)
  refine ⟨checkPortsFrom_again out out.portNames 0 s, ?_, ⟨added, ?_, ?_, h3, h2⟩, ?_⟩
  · intro hret hsame
    unfold checkForMidiDevices at hret ⊢
    rw [hsame]
    exact checkPortsFrom_all_found out2 out.portNames 0 _ (h4 hret)
  · rw [h1]; rfl
  · rw [h1]; rfl
  · intro hs
    exact ⟨hnodup hs, fun um msg => delivered_devices_nodup um msg _ (hnodup hs)⟩

theorem discovery_is_idempotent_witness :
    checkForMidiDevices ⟨["A", "B", "A"], fun _ => some "busy"⟩
        (checkForMidiDevices ⟨["A", "B", "A"], fun _ => none⟩ {}).2 =
      (Outcome.returned, (checkForMidiDevices ⟨["A", "B", "A"], fun _ => none⟩ {}).2) :=
  (discovery_is_idempotent ⟨["A", "B", "A"], fun _ => none⟩
    ⟨["A", "B", "A"], fun _ => some "busy"⟩ {}).2.1 (by decide) rfl

theorem checkForMidiDevices_find (out : RtMidi) (s : AbletonMidiClock) (name : String)
    (v : RtMidiOut) (h : s._midiOutputs.find name = some v) :
    (checkForMidiDevices out s).2._midiOutputs.find name = some v := by
  obtain ⟨added, h1, _⟩ := checkForMidiDevices_spec out s
  rw [h1]
  exact find_withAdded_of_some s added name v h

theorem run_find (polls : List RtMidi) :
    ∀ (s : AbletonMidiClock) (name : String) (v : RtMidiOut),
      s._midiOutputs.find name = some v → (run polls s).2._midiOutputs.find name = some v := by
  induction polls with
  | nil =>
    intro s name v h
    simp only [run]
    split <;> exact h
  | cons out rest ih =>
    intro s name v h
    have hp := checkForMidiDevices_find out s name v h
    simp only [run]
    split
    · split
      · rename_i s1 heq
        rw [heq] at hp
        exact ih s1 name v hp
      · rename_i w s1 heq
        rw [heq] at hp
        exact hp
      · rename_i s1 heq
        rw [heq] at hp
        exact hp
    · exact h

/-- C8: the registry is append-only.  A discovery pass (however it ends) only appends entries,
all for identities that were absent, so every identity present before is present afterwards
with the same handle; the same holds over the whole of `run`; an iteration of the pulse
loop, a start or stop callback, each send function and the two reporting callbacks leave the
registry as it is. -/
theorem registry_is_append_only (um : UnorderedMapOrder) (out : RtMidi) (polls : List RtMidi)
    (p : Double) (b : Bool) (s : AbletonMidiClock) :
    (∃ added : Registry,
      (checkForMidiDevices out s).2._midiOutputs = s._midiOutputs ++ added ∧
      ∀ e ∈ added, s._midiOutputs.find e.1 = none ∧ e.1 ∈ out.portNames) ∧
    (∀ (name : String) (v : RtMidiOut), s._midiOutputs.find name = some v →
      (checkForMidiDevices out s).2._midiOutputs.find name = some v ∧
      (run polls s).2._midiOutputs.find name = some v) ∧
    (runThreadBody um p s).2._midiOutputs = s._midiOutputs ∧
    (startStopChanged um b s)._midiOutputs = s._midiOutputs ∧
    (sendMidiClock um s)._midiOutputs = s._midiOutputs ∧
    (sendMidiClockStart um s)._midiOutputs = s._midiOutputs ∧
    (sendMidiClockStop um s)._midiOutputs = s._midiOutputs ∧
    (∀ t : String, (tempoChanged t s)._midiOutputs = s._midiOutputs) ∧
    (∀ n : Int, (numPeersChanged n s)._midiOutputs = s._midiOutputs) := by
  refine ⟨?_, ?_, runThreadBody_midiOutputs um p s, ?_, tryBroadcast_midiOutputs um _ s,
    tryBroadcast_midiOutputs um _ s, tryBroadcast_midiOutputs um _ s, fun _ => rfl, fun _ => rfl⟩
  · obtain ⟨added, h1, h2, _⟩ := checkForMidiDevices_spec out s
    refine ⟨added.map (fun a => (a.1, (⟨a.2⟩ : RtMidiOut))), by rw [h1]; rfl, ?_⟩
    intro e he
    obtain ⟨a, ha, rfl⟩ := List.mem_map.mp he
    exact h2 a ha
  · intro name v h
    exact ⟨checkForMidiDevices_find out s name v h, run_find polls s name v h⟩
  · cases b
    · exact tryBroadcast_midiOutputs um _ s
    · exact tryBroadcast_midiOutputs um _ s

/-! ## Delivery order: claim C9 -/

theorem appendOrdered_pass (out : RtMidi) (s : AbletonMidiClock) (h : AppendOrdered s) :
    AppendOrdered (checkForMidiDevices out s).2 := by
  obtain ⟨added, h1, _⟩ := checkForMidiDevices_spec out s
  rw [h1]
  refine ⟨?_, h.2⟩
  rw [keys_withAdded, h.1]
  simp [withAdded]

theorem appendOrdered_construct (out : RtMidi) :
    AppendOrdered (AbletonMidiClock.construct out).2 := by
  have h := appendOrdered_pass out {} ⟨rfl, rfl⟩
  unfold AbletonMidiClock.construct
  split
  · rename_i s hs
    rw [hs] at h
    exact h
  · exact h

theorem appendOrdered_run (polls : List RtMidi) :
    ∀ s : AbletonMidiClock, AppendOrdered s → AppendOrdered (run polls s).2 := by
  induction polls with
  | nil =>
    intro s h
    simp only [run]
    split <;> exact h
  | cons out rest ih =>
    intro s h
    have hp := appendOrdered_pass out s h
    simp only [run]
    split
    · split
      · rename_i s1 heq
        rw [heq] at hp
        exact ih s1 hp
      · rename_i w s1 heq
        rw [heq] at hp
        exact hp
      · rename_i s1 heq
        rw [heq] at hp
        exact hp
    · exact h

/-- C9, as stated, fails: with a map that iterates newest entry first, after a discovery pass
that appended "A" and then "B", a broadcast reaches "B" before "A". -/
theorem newest_first_map_delivers_against_append_order :
    (checkForMidiDevices ⟨["A", "B"], fun _ => none⟩ {}).2.opened.map Prod.fst = ["A", "B"] ∧
    (delivered (checkForMidiDevices ⟨["A", "B"], fun _ => none⟩ {}).2
      (sendMidiClock newestFirst (checkForMidiDevices ⟨["A", "B"], fun _ => none⟩ {}).2)).map
        Sent.device = ["B", "A"] := by
  decide

/-- C9, amended: for every registry built by the constructor and any sequence of discovery
passes of `run`, the registry lists the devices in the order in which they were appended, and
a broadcast sends its message to them in the iteration order of the unordered map: a
rearrangement of the append order in which every appended device occurs, and the append
order itself when the map iterates in insertion order. -/
theorem broadcast_follows_map_iteration_order (um : UnorderedMapOrder) (out : RtMidi)
    (polls : List RtMidi) (msg : List Nat) :
    (run polls (AbletonMidiClock.construct out).2).2._midiOutputs.keys =
      (run polls (AbletonMidiClock.construct out).2).2.opened.map Prod.fst ∧
    (delivered (run polls (AbletonMidiClock.construct out).2).2
      (tryBroadcast um msg (run polls (AbletonMidiClock.construct out).2).2)).map Sent.device =
        (um.order (run polls (AbletonMidiClock.construct out).2).2._midiOutputs).keys ∧
    ((delivered (run polls (AbletonMidiClock.construct out).2).2
      (tryBroadcast um msg (run polls (AbletonMidiClock.construct out).2).2)).map Sent.device).Perm
        ((run polls (AbletonMidiClock.construct out).2).2.opened.map Prod.fst) ∧
    (delivered (run polls (AbletonMidiClock.construct out).2).2
      (tryBroadcast insertionOrder msg
        (run polls (AbletonMidiClock.construct out).2).2)).map Sent.device =
      (run polls (AbletonMidiClock.construct out).2).2.opened.map Prod.fst := by
  have hinv := appendOrdered_run polls _ (appendOrdered_construct out)
  generalize (run polls (AbletonMidiClock.construct out).2).2 = s at hinv
  obtain ⟨hk, hf⟩ := hinv
  refine ⟨hk, delivered_devices um msg s hf, ?_, ?_⟩
  · rw [delivered_devices um msg s hf, ← hk]
    exact (um.perm s._midiOutputs).map Prod.fst
  · rw [delivered_devices insertionOrder msg s hf, ← hk]
    rfl

/-! ## Failure to open a port: claim C10 -/

/-- A pass whose first failing `openPort` is the one for port `k + i`, named `name`. -/
theorem checkPortsFrom_first_failure (out : RtMidi) (names : List String) :
    ∀ (k i : Nat) (s : AbletonMidiClock) (name what : String),
      s._lock._flag = false →
      names.get? i = some name →
      s._midiOutputs.find name = none →
      name ∉ names.take i →
      out.openPort (k + i) = some what →
      (∀ j n, j < i → names.get? j = some n → s._midiOutputs.find n = none →
        out.openPort (k + j) = none) →
      ∃ s1, checkPortsFrom out k names s = (Outcome.threw what, s1) ∧
        s1._midiOutputs.find name = none := by
  induction names with
  | nil =>
    intro k i s name what _ hget
    simp at hget
  | cons n rest ih =>
    intro k i s name what hfree hget habs hfirst hfail hearlier
    cases i with
    | zero =>
      simp only [List.get?_cons_zero, Option.some.injEq] at hget
      subst hget
      rcases checkPort_cases out k n s with
        ⟨⟨v, hv⟩, _⟩ | ⟨_, hf, _⟩ | ⟨w, _, _, ho, hc⟩ | ⟨_, _, ho, _⟩
      · rw [habs] at hv; cases hv
      · rw [hfree] at hf; cases hf
      · rw [Nat.add_zero, ho] at hfail
        cases hfail
        exact ⟨s, by simp only [checkPortsFrom, hc], habs⟩
      · rw [Nat.add_zero, ho] at hfail
        cases hfail
    | succ i =>
      simp only [List.get?_cons_succ] at hget
      simp only [List.take_succ_cons, List.mem_cons, not_or] at hfirst
      obtain ⟨hne, hfirst⟩ := hfirst
      have hfail2 : out.openPort (k + 1 + i) = some what := by
        rw [← hfail]; congr 1; omega
      rcases checkPort_cases out k n s with
        ⟨⟨v, hv⟩, hc⟩ | ⟨_, hf, _⟩ | ⟨w, hn, _, ho, _⟩ | ⟨hn, _, _, hc⟩
      · simp only [checkPortsFrom, hc]
        refine ih (k + 1) i s name what hfree hget habs hfirst hfail2 ?_
        intro j m hj hm hnone
        have := hearlier (j + 1) m (by omega) (by simpa using hm) hnone
        rw [← this]; congr 1; omega
      · rw [hfree] at hf; cases hf
      · have := hearlier 0 n (by omega) (by simp) hn
        rw [Nat.add_zero, ho] at this
        cases this
      · simp only [checkPortsFrom, hc]
        have habs2 : (withAdded s [(n, k)])._midiOutputs.find name = none := by
          rw [find_withAdded_none]
          exact ⟨habs, by simpa using hne⟩
        refine ih (k + 1) i (withAdded s [(n, k)]) name what hfree hget habs2 hfirst hfail2 ?_
        intro j m hj hm hnone
        have := hearlier (j + 1) m (by omega) (by simpa using hm)
          ((find_withAdded_none s _ m).mp hnone).1
        rw [← this]; congr 1; omega

/-- When `run` has made the passes `pre` and stands at the head of its loop with the lock
free, it goes on as `run` does from that state. -/
theorem run_append (pre : List RtMidi) :
    ∀ (s0 s : AbletonMidiClock) (l : List RtMidi),
      run pre s0 = (none, s) → s._lock._flag = false →
      s._running = true ∧ run (pre ++ l) s0 = run l s := by
  induction pre with
  | nil =>
    intro s0 s l h _
    simp only [run] at h
    split at h
    · rename_i hr
      simp only [Prod.mk.injEq, true_and] at h
      subst h
      exact ⟨hr, rfl⟩
    · simp at h
  | cons out rest ih =>
    intro s0 s l h hfree
    simp only [run] at h
    split at h
    · rename_i hr
      split at h
      · rename_i s1 heq
        obtain ⟨h1, h2⟩ := ih s1 s l h hfree
        refine ⟨h1, ?_⟩
        simp only [List.cons_append, run, hr, if_true, heq]
        exact h2
      · simp at h
      · rename_i s1 heq
        simp only [Prod.mk.injEq, true_and] at h
        subst h
        obtain ⟨added, h1, _, _, _, _, _, h7⟩ :=
          checkPortsFrom_spec out out.portNames 0 s0 s1 Outcome.spins heq
        have := h7 rfl
        rw [h1] at hfree
        simp [withAdded, this] at hfree
    · simp at h

/-- C10: when `run` stands at the head of its loop (after the passes `pre`, lock free) and, in
the next discovery pass, the first `openPort` to fail is the one for a not yet registered
identity `name`, the exception leaves `checkForMidiDevices` (the pass ends with `threw`),
`run` reports `what()` on `cerr` and returns `1`; `name` is not added to the registry, every
entry present before the pass is still there with its handle, and the lock is free. -/
theorem open_failure_ends_run_with_status_one (pre polls : List RtMidi) (out : RtMidi)
    (s0 s : AbletonMidiClock) (i : Nat) (name what : String)
    (hpre : run pre s0 = (none, s))
    (hfree : s._lock._flag = false)
    (hport : out.portNames.get? i = some name)
    (habsent : s._midiOutputs.find name = none)
    (hfirst : name ∉ out.portNames.take i)
    (hfail : out.openPort i = some what)
    (hearlier : ∀ j n, j < i → out.portNames.get? j = some n →
      s._midiOutputs.find n = none → out.openPort j = none) :
    ∃ s1 : AbletonMidiClock,
      checkForMidiDevices out s = (Outcome.threw what, s1) ∧
      run (pre ++ out :: polls) s0 = (some 1, { s1 with cerr := s1.cerr ++ [what] }) ∧
      s1._midiOutputs.find name = none ∧
      (∀ (n : String) (v : RtMidiOut), s._midiOutputs.find n = some v →
        s1._midiOutputs.find n = some v) ∧
      s1._lock._flag = false := by
  obtain ⟨s1, hpass, hnone⟩ :=
    checkPortsFrom_first_failure out out.portNames 0 i s name what hfree hport habsent hfirst
      (by rw [Nat.zero_add]; exact hfail)
      (by intro j n hj hn hnn; rw [Nat.zero_add]; exact hearlier j n hj hn hnn)
  have hpass2 : checkForMidiDevices out s = (Outcome.threw what, s1) := hpass
  obtain ⟨hr, happ⟩ := run_append pre s0 s (out :: polls) hpre hfree
  obtain ⟨added, h1, _⟩ := checkPortsFrom_spec out out.portNames 0 s s1 _ hpass
  refine ⟨s1, hpass2, ?_, hnone, ?_, ?_⟩
  · rw [happ]
    simp only [run, hr, if_true, hpass2]
  · intro n v hv
    rw [h1]
    exact find_withAdded_of_some s added n v hv
  · rw [h1]
    exact hfree

theorem open_failure_ends_run_with_status_one_witness :
    ∃ s1 : AbletonMidiClock,
      checkForMidiDevices ⟨["A", "B"], fun i => if i = 1 then some "port busy" else none⟩
        (withAdded {} [("A", 0)]) = (Outcome.threw "port busy", s1) ∧
      run ([⟨["A"], fun _ => none⟩] ++
          ⟨["A", "B"], fun i => if i = 1 then some "port busy" else none⟩ :: [])
        {} = (some 1, { s1 with cerr := s1.cerr ++ ["port busy"] }) ∧
      s1._midiOutputs.find "B" = none ∧
      (∀ (n : String) (v : RtMidiOut), (withAdded {} [("A", 0)])._midiOutputs.find n = some v →
        s1._midiOutputs.find n = some v) ∧
      s1._lock._flag = false :=
  open_failure_ends_run_with_status_one [⟨["A"], fun _ => none⟩] []
    ⟨["A", "B"], fun i => if i = 1 then some "port busy" else none⟩ {}
    (withAdded {} [("A", 0)]) 1 "B" "port busy" (by decide) rfl rfl (by decide) (by decide) rfl
    (by
      intro j n hj _ _
      have : j = 0 := by omega
      subst this
      rfl)

/-! ## The lock under interleaving: claim C4 -/

/-- With the flag clear, the four steps of a sending thread do what the send function does. -/
theorem sendStep_four_of_free (um : UnorderedMapOrder) (msg : List Nat) (o : AbletonMidiClock)
    (h : o._lock._flag = false) :
    (fun r : SendPc × AbletonMidiClock => sendStep um msg r.1 r.2)^[4] (SendPc.outside, o) =
      (SendPc.outside, tryBroadcast um msg o) := by
  obtain ⟨r, m, c, ⟨f⟩, se, op, co, ce⟩ := o
  simp only at h
  subst h
  rfl

/-- With the flag set, the one step of a sending thread is the skipped send function. -/
theorem sendStep_of_held (um : UnorderedMapOrder) (msg : List Nat) (o : AbletonMidiClock)
    (h : o._lock._flag = true) :
    sendStep um msg SendPc.outside o = (SendPc.outside, tryBroadcast um msg o) := by
  obtain ⟨r, m, c, ⟨f⟩, se, op, co, ce⟩ := o
  simp only at h
  subst h
  rfl

/-- C4 (the code breaks the claim): the object is constructed while no port is visible, then
port "A" appears.  The schedule below interleaves the pulse thread and the discovery thread.
The pulse thread makes one broadcast up to its explicit `_lock.unlock()`; the discovery
thread finds "A" absent and takes the lock; the destructor of the pulse thread's
`unique_lock` then clears the flag a second time (the flag is clear after the sixth step
although the discovery thread has not released it); the next `try_lock` of the pulse thread
succeeds.  The pulse thread is then at its loop over the registry while the discovery thread
is between its `lock()` and its insertion: two threads are inside the locked section and "A"
is not yet inserted. -/
theorem second_unlock_admits_broadcast_during_insertion :
    (Threads.exec insertionOrder ⟨["A"], fun _ => none⟩
      { obj := (AbletonMidiClock.construct ⟨[], fun _ => none⟩).2 }
      [Turn.pulse, Turn.pulse, Turn.pulse, Turn.discovery, Turn.discovery, Turn.pulse,
        Turn.pulse]).discovery = DiscoveryPc.inserting 0 ∧
    (Threads.exec insertionOrder ⟨["A"], fun _ => none⟩
      { obj := (AbletonMidiClock.construct ⟨[], fun _ => none⟩).2 }
      [Turn.pulse, Turn.pulse, Turn.pulse, Turn.discovery, Turn.discovery, Turn.pulse,
        Turn.pulse]).pulse = SendPc.inLoop kMidiClock ∧
    (Threads.exec insertionOrder ⟨["A"], fun _ => none⟩
      { obj := (AbletonMidiClock.construct ⟨[], fun _ => none⟩).2 }
      [Turn.pulse, Turn.pulse, Turn.pulse, Turn.discovery, Turn.discovery, Turn.pulse,
        Turn.pulse]).inLockedSection = 2 ∧
    (Threads.exec insertionOrder ⟨["A"], fun _ => none⟩
      { obj := (AbletonMidiClock.construct ⟨[], fun _ => none⟩).2 }
      [Turn.pulse, Turn.pulse, Turn.pulse, Turn.discovery, Turn.discovery, Turn.pulse,
        Turn.pulse]).obj._midiOutputs = [] ∧
    (Threads.exec insertionOrder ⟨["A"], fun _ => none⟩
      { obj := (AbletonMidiClock.construct ⟨[], fun _ => none⟩).2 }
      [Turn.pulse, Turn.pulse, Turn.pulse, Turn.discovery, Turn.discovery,
        Turn.pulse]).obj._lock._flag = false ∧
    (Threads.exec insertionOrder ⟨["A"], fun _ => none⟩
      { obj := (AbletonMidiClock.construct ⟨[], fun _ => none⟩).2 }
      [Turn.pulse, Turn.pulse, Turn.pulse, Turn.discovery, Turn.discovery,
        Turn.pulse]).discovery = DiscoveryPc.inserting 0 := by
  decide

end MidiLink
